import Mathlib

/-!
Verification development for the FileLogger repository (Go).

The core under scrutiny is the `scanner` package: a concurrent directory
scanner that classifies files against blocking rules (size, allow-list,
glob pattern), accumulates progress counters, and assembles a final
`ScanResult`.

Modelling decisions (shallow embedding):

* Strings are modelled as `List Char` (`Str`); Go works on UTF-8 bytes,
  the model works on Unicode code points, which agrees on the ASCII
  inputs the rules operate on.
* Go `int`/`int64` arithmetic is modelled as `Int`, with an explicit
  two's-complement wrap (`wrap64`) at the one multiplication where an
  overflow would change the comparison (`isFileSizeAllowed`).
* The concurrent pipeline (coordinator goroutines, worker pool, result
  collector) is sequentialized: the model processes each queued file at
  the point it is enqueued and each directory at the point its traversal
  goroutine is spawned.  The final multiset of file records, the final
  counter values, the set of logged errors and the set of queued work
  items are the same as in every interleaving of the Go program; only
  the arrival order differs, and no claim depends on arrival order.
* Channel sends are modelled as list appends.  `errorChan` is modelled
  by the `chanErrors` field: the Go program sends directory-read and
  entry-info errors there, and no goroutine ever receives from
  `errorChan`, so those messages never reach `progress.Errors`.
* Recursion over the (finite) directory tree is fuel-indexed; a fuel of
  `sizeOf`-magnitude is always sufficient, and all invariant theorems
  are proved for every fuel.
* Filesystem outcomes (stat failure, unreadable directory, unreadable
  file content, sniffed MIME type) are part of the filesystem model
  `FSTree`/`FileMeta`, since they are inputs of the program.
* Wall-clock fields (`ModTime`, `StartTime`, `LastUpdated`, `Duration`)
  and `CurrentDirectory` are omitted: no claim mentions them and they
  carry no logic.
-/

/-- Strings of the model: Go strings as lists of characters. -/
abbrev Str := List Char

/-- Embed a Lean string literal into the model's string type. -/
def str (s : String) : Str := s.data

/-- Two's-complement wrap of a mathematical integer into `int64` range,
models Go `int64` overflow semantics. -/
def wrap64 (x : Int) : Int := (x + 2 ^ 63) % 2 ^ 64 - 2 ^ 63

theorem wrap64_eq_self {x : Int} (h1 : -(2 ^ 63) ≤ x) (h2 : x < 2 ^ 63) :
    wrap64 x = x := by
  unfold wrap64
  rw [Int.emod_eq_of_lt (by omega) (by omega)]
  omega

/-! ### Models of the Go standard-library string helpers the scanner uses -/

/-- ASCII case folding on a code point, models the comparison performed by
Go `strings.EqualFold` (restricted to ASCII, which is all the scanner
compares). -/
def foldNat (c : Char) : Nat :=
  if 65 ≤ c.toNat ∧ c.toNat ≤ 90 then c.toNat + 32 else c.toNat

/-- Models Go `strings.EqualFold`: case-insensitive equality. -/
def equalFold : Str → Str → Bool
  | [], [] => true
  | x :: xs, y :: ys => foldNat x == foldNat y && equalFold xs ys
  | _, _ => false

/-- Models Go `strings.ToLower` (ASCII range). -/
def toLowerStr (s : Str) : Str :=
  s.map (fun c => if 65 ≤ c.toNat ∧ c.toNat ≤ 90 then Char.ofNat (c.toNat + 32) else c)

/-- Models Go `filepath.Ext` on a base name: the suffix beginning at the
final dot, empty if there is no dot.  (The separator cutoff of `Ext` is
irrelevant because the scanner applies it to `info.Name()`, which has no
separator.) -/
def fileExt (nm : Str) : Str :=
  if nm.contains '.' then '.' :: (nm.reverse.takeWhile (fun c => c != '.')).reverse
  else []

/-- Models Go `filepath.Base` for the non-degenerate paths the scanner
builds (non-empty, no trailing separator): the component after the final
separator. -/
def baseName (p : Str) : Str := (p.reverse.takeWhile (fun c => c != '/')).reverse

/-- Models Go `filepath.Join parent child` for the clean paths the scanner
builds. -/
def joinPath (p nm : Str) : Str := p ++ '/' :: nm

/-- Models Go `strings.TrimPrefix s "."`. -/
def trimDot (s : Str) : Str :=
  match s with
  | '.' :: rest => rest
  | _ => s

/-! ### Model of Go `path/filepath.Match` (Unix build)

Transcribed from the Go standard library source (`match.go`), which the
scanner calls for the blocked-pattern rule.  A match result is a pair
`(matched, err)`: Go's `Match` returns an `ErrBadPattern` error for
malformed patterns, and every `return` statement in its source that
carries a non-nil error carries `matched = false`.  The main loop and the
star-backtracking loop are fuel-indexed (they recurse on shrinking
suffixes of pattern and name, so `pattern.length + name.length + 1` fuel
is always sufficient); fuel exhaustion is reported as an error with
`matched = false`, preserving that pairing. -/

/-- Consume the leading `*`s of a pattern chunk (first half of Go
`scanChunk`). -/
def dropStars : Str → Bool × Str
  | '*' :: rest => (true, (dropStars rest).2)
  | p => (false, p)

/-- Scan the chunk up to the next top-level `*` (second half of Go
`scanChunk`); the `Bool` argument is the `inrange` state. -/
def chunkSplit : Str → Bool → Str × Str
  | [], _ => ([], [])
  | '\\' :: c :: rest, inr =>
    let (ch, r) := chunkSplit rest inr
    ('\\' :: c :: ch, r)
  | ['\\'], _ => (['\\'], [])
  | '[' :: rest, _ =>
    let (ch, r) := chunkSplit rest true
    ('[' :: ch, r)
  | ']' :: rest, _ =>
    let (ch, r) := chunkSplit rest false
    (']' :: ch, r)
  | '*' :: rest, inr =>
    if inr then
      let (ch, r) := chunkSplit rest inr
      ('*' :: ch, r)
    else ([], '*' :: rest)
  | c :: rest, inr =>
    let (ch, r) := chunkSplit rest inr
    (c :: ch, r)

/-- Models Go `scanChunk`: gets the next segment of the pattern, returning
(saw a star, the chunk, the remaining pattern). -/
def scanChunk (p : Str) : Bool × Str × Str :=
  let (star, p') := dropStars p
  let (chunk, rest) := chunkSplit p' false
  (star, chunk, rest)

/-- Models Go `getEsc`: one (possibly escaped) character of a character
class; `none` is `ErrBadPattern`. -/
def getEsc : Str → Option (Char × Str)
  | [] => none
  | '-' :: _ => none
  | ']' :: _ => none
  | '\\' :: rest =>
    match rest with
    | [] => none
    | r :: rest' => if rest' = [] then none else some (r, rest')
  | c :: rest => if rest = [] then none else some (c, rest)

/-- Models the character-class range loop inside Go `matchChunk`: parses
ranges until the closing `]`, accumulating whether `r` fell in one;
`none` is `ErrBadPattern`. -/
def rangesLoop (r : Char) : Nat → Str → Nat → Bool → Option (Bool × Str)
  | 0, _, _, _ => none
  | Nat.succ fuel, chunk, nrange, acc =>
    match chunk, nrange with
    | ']' :: rest, Nat.succ _ => some (acc, rest)
    | _, _ =>
      match getEsc chunk with
      | none => none
      | some (lo, chunk1) =>
        match chunk1 with
        | '-' :: chunk2 =>
          match getEsc chunk2 with
          | none => none
          | some (hi, chunk3) =>
            rangesLoop r fuel chunk3 (nrange + 1)
              (acc || (decide (lo ≤ r) && decide (r ≤ hi)))
        | _ =>
          let hi := lo
          rangesLoop r fuel chunk1 (nrange + 1)
            (acc || (decide (lo ≤ r) && decide (r ≤ hi)))

/-- Models Go `matchChunk`: matches the beginning of `s` against `chunk`,
threading the `failed` flag exactly as the source does.  Result is
(rest of s, ok, err); every error site in the source returns
`"", false, err`. -/
def matchChunk : Nat → Str → Str → Bool → Str × Bool × Bool
  | 0, _, _, _ => ([], false, true)
  | Nat.succ fuel, chunk, s, failed =>
    match chunk with
    | [] => if failed then ([], false, false) else (s, true, false)
    | c :: chunk' =>
      let failed := failed || s.isEmpty
      if c = '[' then
        let r : Char := if failed then Char.ofNat 0 else s.headD (Char.ofNat 0)
        let s' : Str := if failed then s else s.tail
        let (negated, chunk2) :=
          match chunk' with
          | '^' :: cs => (true, cs)
          | _ => (false, chunk')
        match rangesLoop r fuel chunk2 0 false with
        | none => ([], false, true)
        | some (m, chunk3) =>
          matchChunk fuel chunk3 s' (failed || (m == negated))
      else if c = '?' then
        let failed' := if failed then true else decide (s.headD (Char.ofNat 0) = '/')
        let s' : Str := if failed then s else s.tail
        matchChunk fuel chunk' s' failed'
      else if c = '\\' then
        match chunk' with
        | [] => ([], false, true)
        | c2 :: chunk'' =>
          let failed' := if failed then true else c2 != s.headD (Char.ofNat 0)
          let s' : Str := if failed then s else s.tail
          matchChunk fuel chunk'' s' failed'
      else
        let failed' := if failed then true else c != s.headD (Char.ofNat 0)
        let s' : Str := if failed then s else s.tail
        matchChunk fuel chunk' s' failed'

/-- The two loop states of Go `Match`: the main chunk loop and the
star-backtracking loop over name positions. -/
inductive MatchState where
  | start (pattern name : Str)
  | star (chunk rest name : Str)

/-- Models the main loop of Go `filepath.Match` (both its labelled loops),
fuel-indexed.  Result is `(matched, err)`. -/
def matchGo : Nat → MatchState → Bool × Bool
  | 0, _ => (false, true)
  | Nat.succ fuel, MatchState.start pattern name =>
    match pattern with
    | [] => (name.isEmpty, false)
    | _ :: _ =>
      let (starFlag, chunk, rest) := scanChunk pattern
      if starFlag && chunk.isEmpty then (!(name.contains '/'), false)
      else
        let (t, ok, err) := matchChunk (chunk.length + 1) chunk name false
        if ok && (t.isEmpty || !rest.isEmpty) then matchGo fuel (MatchState.start rest t)
        else if err then (false, true)
        else if starFlag then matchGo fuel (MatchState.star chunk rest name)
        else (false, false)
  | Nat.succ fuel, MatchState.star chunk rest name =>
    match name with
    | [] => (false, false)
    | c :: name' =>
      if c = '/' then (false, false)
      else
        let (t, ok, err) := matchChunk (chunk.length + 1) chunk name' false
        if ok then
          if rest.isEmpty && !t.isEmpty then matchGo fuel (MatchState.star chunk rest name')
          else matchGo fuel (MatchState.start rest t)
        else if err then (false, true)
        else matchGo fuel (MatchState.star chunk rest name')

/-- Models Go `filepath.Match pattern name`, returning
`(matched, err)`. -/
def filepathMatch (p nm : Str) : Bool × Bool :=
  matchGo (p.length + nm.length + 1) (MatchState.start p nm)

/-! ### Data model (`internal/models`) -/

/-- Models `models.ScanConfig`. -/
structure ScanConfig where
  maxFileSizeMB : Int
  allowedTypes : List Str
  blockedPatterns : List Str
  scanRecursively : Bool
  exportBlockedToJSON : Bool
  workerCount : Int
  bufferSize : Int
deriving Repr, DecidableEq

/-- Models `models.FileInfo` (the `ModTime` wall-clock field is omitted;
no logic reads it). -/
structure FileInfo where
  path : Str
  name : Str
  size : Int
  fileType : Str
  mimeType : Str
  extension : Str
  isDirectory : Bool
  isBlocked : Bool
  blockReason : Str
  accessError : Str
deriving Repr, DecidableEq

/-- Models `models.ScanWork`. -/
structure ScanWork where
  path : Str
  isDir : Bool
  priority : Int
deriving Repr, DecidableEq

/-- Models `models.ScanProgress` (timestamps and `CurrentDirectory`
omitted; `totalSize` is kept because the field exists, and the scanner
never increments it). -/
structure ScanProgress where
  totalFiles : Int
  scannedFiles : Int
  totalSize : Int
  scannedSize : Int
  blockedFiles : Int
  errors : List Str
deriving Repr, DecidableEq

/-- Models `models.ScanResult` (`Duration` and the top-level `Error`
string omitted; `Error` is never assigned by `Scan`). -/
structure ScanResult where
  files : List FileInfo
  progress : ScanProgress
  success : Bool
deriving Repr, DecidableEq

/-- Models `scanner.New`: resolves the worker-count and buffer-size
defaults on the configuration stored in the returned `Scanner`.  The
channels and zeroed progress of the `Scanner` are modelled by the initial
`ScanState` below. -/
def New (cfg : ScanConfig) : ScanConfig :=
  let cfg1 := if cfg.workerCount ≤ 0 then { cfg with workerCount := 4 } else cfg
  if cfg1.bufferSize ≤ 0 then { cfg1 with bufferSize := 1000 } else cfg1

/-! ### The classifier (`shouldBlockFile`, `getBlockReason`,
`isFileSizeAllowed`) -/

/-- Models `Scanner.isFileSizeAllowed`: the Go source computes
`int64(s.config.MaxFileSizeMB) * 1024 * 1024` in `int64` arithmetic,
hence the explicit wrap. -/
def isFileSizeAllowed (cfg : ScanConfig) (size : Int) : Bool :=
  decide (size ≤ wrap64 (cfg.maxFileSizeMB * 1024 * 1024))

/-- The allow-list membership loop shared by `shouldBlockFile` and
`getBlockReason` (both Go functions run the identical loop computing
`isAllowed`). -/
def typeAllowed (cfg : ScanConfig) (file : FileInfo) : Bool :=
  cfg.allowedTypes.any (fun allowedType => equalFold file.extension allowedType)

/-- Models `Scanner.shouldBlockFile`.  In the pattern loop the Go source
reads `matched, err := filepath.Match(pattern, file.Name)` and blocks on
`err == nil && matched`. -/
def shouldBlockFile (cfg : ScanConfig) (file : FileInfo) : Bool :=
  if !(isFileSizeAllowed cfg file.size) then true
  else if !cfg.allowedTypes.isEmpty && !(typeAllowed cfg file) then true
  else
    cfg.blockedPatterns.any (fun pattern =>
      let m := filepathMatch pattern file.name
      !m.2 && m.1)

/-- Models `Scanner.getBlockReason`.  In its pattern loop the Go source
discards the error (`matched, _ := filepath.Match(...)`) and reports the
first pattern with `matched` true. -/
def getBlockReason (cfg : ScanConfig) (file : FileInfo) : Str :=
  if !(isFileSizeAllowed cfg file.size) then str "File size exceeds limit"
  else if !cfg.allowedTypes.isEmpty && !(typeAllowed cfg file) then str "File type not allowed"
  else
    match cfg.blockedPatterns.find? (fun pattern => (filepathMatch pattern file.name).1) with
    | some pattern => str "File matches blocked pattern: " ++ pattern
    | none => str "Unknown reason"

/-! ### Filesystem model -/

/-- Per-file filesystem outcomes observed by `processWork`:
`statErr` is the message of a failing `os.Stat`; `readErr` is the message
of a failing `os.Open`/first read in `detectFileType` (Go treats a read
returning an error with zero bytes as a failure); `mime` is the content
type `http.DetectContentType` sniffs from the first bytes when the read
succeeds. -/
structure FileMeta where
  size : Int
  statErr : Option Str
  readErr : Option Str
  mime : Str
deriving Repr, DecidableEq

/-- A filesystem tree (no symlinks: the spec's non-goals exclude them).
`infoErr` is the message of a failing `entry.Info()` in the parent's
`ReadDir` loop; a directory's `entries` is `.error msg` when
`os.ReadDir` fails on it. -/
inductive FSTree where
  | file (name : Str) (infoErr : Option Str) (meta : FileMeta)
  | dir (name : Str) (infoErr : Option Str) (entries : Except Str (List FSTree))
deriving Repr

/-- Entry name as listed by the parent directory. -/
def FSTree.name : FSTree → Str
  | .file nm _ _ => nm
  | .dir nm _ _ => nm

/-- The `entry.Info()` outcome for this entry. -/
def FSTree.infoErr : FSTree → Option Str
  | .file _ e _ => e
  | .dir _ e _ => e

/-! ### Scan pipeline state -/

/-- The mutable state of a running scan: the collector's accumulating
`files` list, `progress.Errors` (`errors`), the counters, plus two
traces: `chanErrors` records every send to `errorChan` (which no
goroutine ever receives from), and `workItems` records every
`ScanWork` sent to `workChan`. -/
structure ScanState where
  files : List FileInfo
  errors : List Str
  chanErrors : List Str
  totalFiles : Int
  scannedFiles : Int
  scannedSize : Int
  blockedFiles : Int
  workItems : List ScanWork
deriving Repr, DecidableEq

/-- The zeroed progress/state a fresh `Scanner` starts with. -/
def initState : ScanState :=
  { files := [], errors := [], chanErrors := [], totalFiles := 0,
    scannedFiles := 0, scannedSize := 0, blockedFiles := 0, workItems := [] }

/-- A directory `FileInfo` as emitted by `scanDirectory` (only `Path`,
`Name` and `IsDirectory` are set; all other fields are Go zero
values). -/
def dirRecord (path nm : Str) : FileInfo :=
  { path := path, name := nm, size := 0, fileType := [], mimeType := [],
    extension := [], isDirectory := true, isBlocked := false,
    blockReason := [], accessError := [] }

/-- Emit a directory record and increment `TotalFiles`, as the adjacent
`resultChan <- ...; atomic.AddInt64(&s.progress.TotalFiles, 1)` pairs in
`scanDirectory` do. -/
def emitDirRecord (st : ScanState) (path nm : Str) : ScanState :=
  { st with files := st.files ++ [dirRecord path nm],
            totalFiles := st.totalFiles + 1 }

/-- Models the record construction of `Scanner.processWork` for a file
whose `os.Stat` succeeded (source lines building `fileInfo`, running
`detectFileType` and the classifier).  `detectFileType` on failure only
reports the error (`AccessError` is set, `MimeType`/`FileType` stay
empty); on success it sets `MimeType` from the sniffed content type and
derives `FileType` from the extension or the MIME prefix. -/
def mkFileRecord (cfg : ScanConfig) (path : Str) (meta : FileMeta) : FileInfo :=
  let nm := baseName path
  let ext := toLowerStr (fileExt nm)
  let f0 : FileInfo :=
    { path := path, name := nm, size := meta.size, fileType := [],
      mimeType := [], extension := ext, isDirectory := false,
      isBlocked := false, blockReason := [], accessError := [] }
  let f1 :=
    match meta.readErr with
    | some msg => { f0 with accessError := msg }
    | none =>
      { f0 with mimeType := meta.mime,
                fileType := if ext != [] then trimDot ext
                            else meta.mime.takeWhile (fun c => c != '/') }
  if shouldBlockFile cfg f1 then
    let f2 := { f1 with isBlocked := true }
    { f2 with blockReason := getBlockReason cfg f2 }
  else f1

/-- Models `Scanner.processWork` on a file work item: a stat failure
sends an error-carrying result, which the collector turns into a
`progress.Errors` entry; otherwise the classified record is produced,
the `ScannedFiles`/`ScannedSize`/`BlockedFiles` counters are bumped and
the record is sent to the collector. -/
def processWork (cfg : ScanConfig) (st : ScanState) (path : Str) (meta : FileMeta) :
    ScanState :=
  match meta.statErr with
  | some msg => { st with errors := st.errors ++ [msg] }
  | none =>
    let record := mkFileRecord cfg path meta
    { st with
      files := st.files ++ [record],
      scannedFiles := st.scannedFiles + 1,
      scannedSize := st.scannedSize + meta.size,
      blockedFiles := st.blockedFiles + (if record.isBlocked then 1 else 0) }

/-- Models the entries loop of `Scanner.scanDirectory` at directory
`path` (with `isRoot` standing for the source's `path == root` test),
together with the worker-pool processing of every file item it enqueues
and the traversal goroutines it spawns for subdirectories.  Fuel-indexed;
exhaustion leaves the state unchanged (never reached for sufficient
fuel). -/
def scanEntries (cfg : ScanConfig) : Nat → Str → Bool → List FSTree → ScanState → ScanState
  | _, _, _, [], st => st
  | 0, _, _, _ :: _, st => st
  | Nat.succ fuel, path, isRoot, e :: rest, st =>
    let fullPath := joinPath path e.name
    let st1 :=
      match e.infoErr with
      | some msg =>
        { st with chanErrors := st.chanErrors ++
            [str "error getting info for " ++ fullPath ++ str ": " ++ msg] }
      | none =>
        match e with
        | .file _ _ meta =>
          if cfg.exportBlockedToJSON && baseName fullPath == str "blocked_files.json" then st
          else
            let st' := { st with workItems := st.workItems ++
              [{ path := fullPath, isDir := false, priority := 1 }] }
            processWork cfg st' fullPath meta
        | .dir nm _ entriesE =>
          if cfg.scanRecursively then
            let st' := emitDirRecord st fullPath nm
            match entriesE with
            | .error msg =>
              { st' with chanErrors := st'.chanErrors ++
                  [str "error reading directory " ++ fullPath ++ str ": " ++ msg] }
            | .ok es => scanEntries cfg fuel fullPath false es st'
          else
            if isRoot then emitDirRecord st fullPath nm else st
    scanEntries cfg fuel path isRoot rest st1

/-- Models `startScan` + the pipeline draining it: the root is queued as
a single `ScanWork` carrying `os.Stat(root).IsDir()`; a worker picks it
up, and for a directory root `processWork` dispatches to
`scanDirectory(root, root)`, which emits the root record and walks the
entries. -/
def runScan (cfg : ScanConfig) (fuel : Nat) (rootPath : Str) (t : FSTree) : ScanState :=
  match t with
  | .file _ _ meta =>
    let st := { initState with
      workItems := [{ path := rootPath, isDir := false, priority := 1 }] }
    processWork cfg st rootPath meta
  | .dir _ _ entriesE =>
    let st := { initState with
      workItems := [{ path := rootPath, isDir := true, priority := 1 }] }
    let st1 := emitDirRecord st rootPath (baseName rootPath)
    match entriesE with
    | .error msg =>
      { st1 with chanErrors := st1.chanErrors ++
          [str "error reading directory " ++ rootPath ++ str ": " ++ msg] }
    | .ok es => scanEntries cfg fuel rootPath true es st1

/-- Models the tail of `Scanner.Scan` (source lines after the collector
finishes): `Success` is computed from the error log *before* the export
step; when export is configured and fails, the error string is appended
to `result.Progress.Errors` afterwards.  `exportErr` is the outcome of
the external `jsonexport.ExportBlockedFiles` collaborator. -/
def finishScan (cfg : ScanConfig) (st : ScanState) (exportErr : Option Str) : ScanResult :=
  let success := st.errors.isEmpty
  let finalErrors :=
    if cfg.exportBlockedToJSON then
      match exportErr with
      | some msg => st.errors ++ [str "Failed to export blocked files: " ++ msg]
      | none => st.errors
    else st.errors
  { files := st.files,
    progress := { totalFiles := st.totalFiles, scannedFiles := st.scannedFiles,
                  totalSize := 0, scannedSize := st.scannedSize,
                  blockedFiles := st.blockedFiles, errors := finalErrors },
    success := success }

/-- Models `Scanner.Scan` on a scanner built by `New`: an empty root path
is the fatal validation error; a root that exists (the given tree) is
traversed and the result assembled.  (The `os.Stat(root)` failure branch
is not modelled: the model is handed an existing tree.) -/
def Scan (cfg : ScanConfig) (fuel : Nat) (rootPath : Str) (t : FSTree)
    (exportErr : Option Str) : Except Str ScanResult :=
  if rootPath.isEmpty then Except.error (str "empty path provided")
  else Except.ok (finishScan cfg (runScan cfg fuel rootPath t) exportErr)

/-! ### The matcher never reports a match together with an error

Every `return` statement of Go `Match`/`matchChunk` that carries a
non-nil error carries `matched = false`; this is what makes the two
classifier functions (which treat the error differently) agree. -/

theorem matchGo_matched_no_err (fuel : Nat) (st : MatchState) :
    (matchGo fuel st).1 = true → (matchGo fuel st).2 = false := by
  induction fuel generalizing st with
  | zero => simp [matchGo]
  | succ fuel ih =>
    cases st with
    | start pattern name =>
      cases pattern with
      | nil => simp [matchGo]
      | cons c p' =>
        simp only [matchGo]
        repeat' split
        all_goals first | exact ih _ | simp
    | star chunk rest name =>
      cases name with
      | nil => simp [matchGo]
      | cons c name' =>
        simp only [matchGo]
        repeat' split
        all_goals first | exact ih _ | simp

theorem filepathMatch_matched_no_err (p nm : Str) :
    (filepathMatch p nm).1 = true → (filepathMatch p nm).2 = false :=
  matchGo_matched_no_err _ _

/-- The first pattern with `matched = true` (the notion `getBlockReason`
uses) is also the first with `err == nil && matched` (the notion
`shouldBlockFile` uses). -/
theorem find?_matched_eq_find?_clean (nm : Str) (ps : List Str) :
    ps.find? (fun p => (filepathMatch p nm).1)
      = ps.find? (fun p => !(filepathMatch p nm).2 && (filepathMatch p nm).1) := by
  induction ps with
  | nil => rfl
  | cons p ps ih =>
    by_cases h : (filepathMatch p nm).1 = true
    · have h2 := filepathMatch_matched_no_err p nm h
      simp [List.find?, h, h2]
    · simp only [Bool.not_eq_true] at h
      simp [List.find?, h, ih]

/-- `List.any` agrees with `List.find?.isSome`. -/
theorem any_eq_find?_isSome {α : Type} (p : α → Bool) (l : List α) :
    l.any p = (l.find? p).isSome := by
  induction l with
  | nil => rfl
  | cons a l ih =>
    by_cases h : p a = true
    · simp [List.find?_cons_of_pos _ h, h]
    · simp only [List.any_cons, List.find?_cons_of_neg _ h, ih,
        Bool.not_eq_true] at h ⊢
      simp [h]

/-- Lists with different prefixes stay different after appending. -/
theorem append_ne_of_take_ne {A B : Str} (n : Nat) (hn : n ≤ A.length)
    (h : A.take n ≠ B.take n) : ∀ p : Str, A ++ p ≠ B := by
  intro p hc
  apply h
  rw [← List.take_append_of_le_length hn, hc]

/-- A list with a different prefix differs from every extension of
another. -/
theorem ne_append_of_take_ne {A B : Str} (n : Nat) (hn : n ≤ B.length)
    (h : A.take n ≠ B.take n) : ∀ p : Str, A ≠ B ++ p := by
  intro p hc
  apply h
  rw [← List.take_append_of_le_length hn, ← hc]

/-! ### C3: the boolean decision and the reason derivation agree -/

/-- C3: the boolean blocking decision and the reason derivation apply the
same precedence (size, then allow-list, then pattern) and never disagree:
a file is blocked exactly when the derived reason is not the fallback
"Unknown reason", and the reason is that of the first rule the file
violates (for the pattern rule, the first pattern that cleanly
matches). -/
theorem block_decision_reason_agree (cfg : ScanConfig) (f : FileInfo) :
    (shouldBlockFile cfg f = true ↔ getBlockReason cfg f ≠ str "Unknown reason") ∧
    (isFileSizeAllowed cfg f.size = false →
      getBlockReason cfg f = str "File size exceeds limit") ∧
    (isFileSizeAllowed cfg f.size = true →
      (!cfg.allowedTypes.isEmpty && !(typeAllowed cfg f)) = true →
      getBlockReason cfg f = str "File type not allowed") ∧
    (isFileSizeAllowed cfg f.size = true →
      (!cfg.allowedTypes.isEmpty && !(typeAllowed cfg f)) = false →
      ∀ p, cfg.blockedPatterns.find?
          (fun q => !(filepathMatch q f.name).2 && (filepathMatch q f.name).1) = some p →
        getBlockReason cfg f = str "File matches blocked pattern: " ++ p) := by
  by_cases hs : isFileSizeAllowed cfg f.size = true
  · by_cases ht : (!cfg.allowedTypes.isEmpty && !(typeAllowed cfg f)) = true
    · refine ⟨?_, ?_, ?_, ?_⟩
      · simp only [shouldBlockFile, getBlockReason, hs, ht]
        simp only [Bool.not_true, Bool.false_eq_true, if_false, if_true]
        decide
      · intro h; rw [hs] at h; exact absurd h (by simp)
      · intro _ _; simp [getBlockReason, hs, ht]
      · intro _ h; rw [ht] at h; exact absurd h (by simp)
    · have ht' : (!cfg.allowedTypes.isEmpty && !(typeAllowed cfg f)) = false := by
        simpa using ht
      have hfind := find?_matched_eq_find?_clean f.name cfg.blockedPatterns
      refine ⟨?_, ?_, ?_, ?_⟩
      · simp only [shouldBlockFile, getBlockReason, hs, ht', Bool.not_true,
          Bool.false_eq_true, if_false, hfind]
        rw [any_eq_find?_isSome]
        cases hf : cfg.blockedPatterns.find?
            (fun q => !(filepathMatch q f.name).2 && (filepathMatch q f.name).1) with
        | none => simp
        | some p =>
          simp only [Option.isSome_some, true_iff, ne_eq]
          exact append_ne_of_take_ne 1 (by decide) (by decide) p
      · intro h; rw [hs] at h; exact absurd h (by simp)
      · intro _ h; rw [ht'] at h; exact absurd h (by simp)
      · intro _ _ p hp
        simp only [getBlockReason, hs, ht', Bool.not_true, Bool.false_eq_true,
          if_false, hfind, hp]
  · have hs' : isFileSizeAllowed cfg f.size = false := by simpa using hs
    refine ⟨?_, ?_, ?_, ?_⟩
    · simp only [shouldBlockFile, getBlockReason, hs', Bool.not_false, if_true]
      decide
    · intro _; simp [getBlockReason, hs']
    · intro h; rw [hs'] at h; exact absurd h (by simp)
    · intro h; rw [hs'] at h; exact absurd h (by simp)

/-! ### C10: patterns whose match errors are inert -/

theorem any_filter_eq {α : Type} (keep g : α → Bool)
    (h : ∀ x, keep x = false → g x = false) :
    ∀ l : List α, (l.filter keep).any g = l.any g := by
  intro l
  induction l with
  | nil => rfl
  | cons a l ih =>
    by_cases hk : keep a = true
    · simp [List.filter_cons, hk, ih]
    · have hk' : keep a = false := by simpa using hk
      simp [List.filter_cons, hk', ih, h a hk']

theorem find?_filter_eq {α : Type} (keep g : α → Bool)
    (h : ∀ x, keep x = false → g x = false) :
    ∀ l : List α, (l.filter keep).find? g = l.find? g := by
  intro l
  induction l with
  | nil => rfl
  | cons a l ih =>
    by_cases hk : keep a = true
    · simp [List.filter_cons, hk, List.find?, ih]
    · have hk' : keep a = false := by simpa using hk
      simp [List.filter_cons, hk', List.find?, h a hk', ih]

/-- C10: a pattern whose match reports an error is inert: dropping all
erroring patterns changes neither the blocking decision nor the derived
reason, and an erroring pattern is never reported as the block
reason. -/
theorem malformed_pattern_ignored (cfg : ScanConfig) (f : FileInfo) (p : Str)
    (herr : (filepathMatch p f.name).2 = true) :
    shouldBlockFile cfg f = shouldBlockFile
        { cfg with blockedPatterns :=
            cfg.blockedPatterns.filter (fun q => !(filepathMatch q f.name).2) } f ∧
    getBlockReason cfg f = getBlockReason
        { cfg with blockedPatterns :=
            cfg.blockedPatterns.filter (fun q => !(filepathMatch q f.name).2) } f ∧
    getBlockReason cfg f ≠ str "File matches blocked pattern: " ++ p := by
  have hclean : ∀ q : Str, (!(filepathMatch q f.name).2) = false →
      (!(filepathMatch q f.name).2 && (filepathMatch q f.name).1) = false := by
    intro q hq; simp [hq]
  have hmatched : ∀ q : Str, (!(filepathMatch q f.name).2) = false →
      (filepathMatch q f.name).1 = false := by
    intro q hq
    simp only [Bool.not_eq_false'] at hq
    by_cases hm : (filepathMatch q f.name).1 = true
    · have := filepathMatch_matched_no_err q f.name hm
      rw [this] at hq; exact absurd hq (by simp)
    · simpa using hm
  refine ⟨?_, ?_, ?_⟩
  · simp only [shouldBlockFile, isFileSizeAllowed, typeAllowed]
    rw [any_filter_eq _ _ hclean]
  · simp only [getBlockReason, isFileSizeAllowed, typeAllowed]
    rw [find?_filter_eq _ _ hmatched]
  · simp only [getBlockReason]
    split
    · exact ne_append_of_take_ne 6 (by decide) (by decide) p
    · split
      · exact ne_append_of_take_ne 6 (by decide) (by decide) p
      · split
        · next q hq =>
          intro hcontra
          have hqp : q = p := List.append_cancel_left hcontra
          subst hqp
          have hm := List.find?_some hq
          have := filepathMatch_matched_no_err q f.name hm
          rw [this] at herr
          exact absurd herr (by simp)
        · exact ne_append_of_take_ne 1 (by decide) (by decide) p

theorem wrap64_zero : wrap64 0 = 0 :=
  wrap64_eq_self (by norm_num) (by norm_num)

/-- C2: for every configuration whose limit computation does not overflow
`int64`, the size rule blocks exactly when `size > maxSizeMB*1024*1024`;
a file exactly at the limit passes the size rule, and one byte over is
blocked with the reason naming the size limit. -/
theorem size_rule_boundary (cfg : ScanConfig) (f : FileInfo)
    (h1 : -(2 ^ 63) ≤ cfg.maxFileSizeMB * 1024 * 1024)
    (h2 : cfg.maxFileSizeMB * 1024 * 1024 < 2 ^ 63) :
    (isFileSizeAllowed cfg f.size = false ↔ cfg.maxFileSizeMB * 1024 * 1024 < f.size) ∧
    (f.size = cfg.maxFileSizeMB * 1024 * 1024 → isFileSizeAllowed cfg f.size = true) ∧
    (f.size = cfg.maxFileSizeMB * 1024 * 1024 + 1 →
      shouldBlockFile cfg f = true ∧
      getBlockReason cfg f = str "File size exceeds limit") := by
  have hw : wrap64 (cfg.maxFileSizeMB * 1024 * 1024) = cfg.maxFileSizeMB * 1024 * 1024 :=
    wrap64_eq_self h1 h2
  refine ⟨?_, ?_, ?_⟩
  · simp only [isFileSizeAllowed, hw, decide_eq_false_iff_not]
    omega
  · intro h
    simp only [isFileSizeAllowed, hw, decide_eq_true_eq]
    omega
  · intro h
    have hfalse : isFileSizeAllowed cfg f.size = false := by
      simp only [isFileSizeAllowed, hw, decide_eq_false_iff_not]
      omega
    exact ⟨by simp [shouldBlockFile, hfalse], by simp [getBlockReason, hfalse]⟩

/-- C8: `New` resolves defaults only for worker count (4) and buffer size
(1000); `MaxFileSizeMB` is passed through, and when it is 0 the limit is
0 bytes, so every file of positive size fails the size rule. -/
theorem new_defaults_and_zero_limit (cfg : ScanConfig) :
    (New cfg).maxFileSizeMB = cfg.maxFileSizeMB ∧
    (New cfg).allowedTypes = cfg.allowedTypes ∧
    (New cfg).blockedPatterns = cfg.blockedPatterns ∧
    (New cfg).scanRecursively = cfg.scanRecursively ∧
    (New cfg).exportBlockedToJSON = cfg.exportBlockedToJSON ∧
    (cfg.workerCount ≤ 0 → (New cfg).workerCount = 4) ∧
    (0 < cfg.workerCount → (New cfg).workerCount = cfg.workerCount) ∧
    (cfg.bufferSize ≤ 0 → (New cfg).bufferSize = 1000) ∧
    (0 < cfg.bufferSize → (New cfg).bufferSize = cfg.bufferSize) ∧
    (cfg.maxFileSizeMB = 0 → ∀ size : Int, 0 < size →
      isFileSizeAllowed (New cfg) size = false) := by
  have hmax : (New cfg).maxFileSizeMB = cfg.maxFileSizeMB := by
    by_cases hw : cfg.workerCount ≤ 0 <;> by_cases hb : cfg.bufferSize ≤ 0 <;>
      simp [New, hw, hb]
  have hzero : cfg.maxFileSizeMB = 0 → ∀ size : Int, 0 < size →
      isFileSizeAllowed (New cfg) size = false := by
    intro hm size hsz
    simp only [isFileSizeAllowed, hmax, hm]
    norm_num [wrap64_zero]
    omega
  by_cases hw : cfg.workerCount ≤ 0 <;> by_cases hb : cfg.bufferSize ≤ 0 <;>
    refine ⟨hmax, ?_, ?_, ?_, ?_, ?_, ?_, ?_, ?_, hzero⟩ <;>
      simp [New, hw, hb]

theorem shouldBlockFile_congr (cfg : ScanConfig) {f g : FileInfo}
    (hs : f.size = g.size) (he : f.extension = g.extension) (hn : f.name = g.name) :
    shouldBlockFile cfg f = shouldBlockFile cfg g := by
  simp only [shouldBlockFile, typeAllowed, hs, he, hn]

theorem getBlockReason_congr (cfg : ScanConfig) {f g : FileInfo}
    (hs : f.size = g.size) (he : f.extension = g.extension) (hn : f.name = g.name) :
    getBlockReason cfg f = getBlockReason cfg g := by
  simp only [getBlockReason, typeAllowed, hs, he, hn]

theorem mkFileRecord_extension (cfg : ScanConfig) (path : Str) (meta : FileMeta) :
    (mkFileRecord cfg path meta).extension = toLowerStr (fileExt (baseName path)) := by
  unfold mkFileRecord
  split <;> (dsimp only; repeat' split) <;> rfl

theorem mkFileRecord_size (cfg : ScanConfig) (path : Str) (meta : FileMeta) :
    (mkFileRecord cfg path meta).size = meta.size := by
  unfold mkFileRecord
  split <;> (dsimp only; repeat' split) <;> rfl

theorem mkFileRecord_name (cfg : ScanConfig) (path : Str) (meta : FileMeta) :
    (mkFileRecord cfg path meta).name = baseName path := by
  unfold mkFileRecord
  split <;> (dsimp only; repeat' split) <;> rfl

theorem mkFileRecord_isDirectory (cfg : ScanConfig) (path : Str) (meta : FileMeta) :
    (mkFileRecord cfg path meta).isDirectory = false := by
  unfold mkFileRecord
  split <;> (dsimp only; repeat' split) <;> rfl

/-- Normalizer: the blocking decision reads only `size`, `extension` and
`name`. -/
theorem shouldBlockFile_fields (cfg : ScanConfig) (p n : Str) (sz : Int)
    (ft mt ex : Str) (d b : Bool) (br ae : Str) :
    shouldBlockFile cfg
        { path := p, name := n, size := sz, fileType := ft, mimeType := mt,
          extension := ex, isDirectory := d, isBlocked := b,
          blockReason := br, accessError := ae }
      = shouldBlockFile cfg
        { path := [], name := n, size := sz, fileType := [], mimeType := [],
          extension := ex, isDirectory := false, isBlocked := false,
          blockReason := [], accessError := [] } :=
  shouldBlockFile_congr cfg rfl rfl rfl

/-- Normalizer: the reason derivation reads only `size`, `extension` and
`name`. -/
theorem getBlockReason_fields (cfg : ScanConfig) (p n : Str) (sz : Int)
    (ft mt ex : Str) (d b : Bool) (br ae : Str) :
    getBlockReason cfg
        { path := p, name := n, size := sz, fileType := ft, mimeType := mt,
          extension := ex, isDirectory := d, isBlocked := b,
          blockReason := br, accessError := ae }
      = getBlockReason cfg
        { path := [], name := n, size := sz, fileType := [], mimeType := [],
          extension := ex, isDirectory := false, isBlocked := false,
          blockReason := [], accessError := [] } :=
  getBlockReason_congr cfg rfl rfl rfl

/-- C6 (amended): a failing content read sets the record's access error
to the failure message, but classification is unaffected: the blocking
decision and reason are the same as for the identical file whose read
succeeds. -/
theorem read_error_marks_not_blocks (cfg : ScanConfig) (path : Str) (meta : FileMeta)
    (msg : Str) (h : meta.readErr = some msg) :
    (mkFileRecord cfg path meta).accessError = msg ∧
    (mkFileRecord cfg path meta).isBlocked
        = (mkFileRecord cfg path { meta with readErr := none }).isBlocked ∧
    (mkFileRecord cfg path meta).blockReason
        = (mkFileRecord cfg path { meta with readErr := none }).blockReason := by
  unfold mkFileRecord
  rw [h]
  dsimp only
  simp only [shouldBlockFile_fields, getBlockReason_fields]
  split <;> simp

theorem eq_dot_of_foldNat {c : Char} (h : foldNat c = 46) : c = '.' := by
  unfold foldNat at h
  split at h
  · omega
  · have hc : c = Char.ofNat 46 := by rw [← h, Char.ofNat_toNat]
    rw [hc]

theorem fileExt_nil_or_dot (nm : Str) :
    fileExt nm = [] ∨ ∃ tl, fileExt nm = '.' :: tl := by
  unfold fileExt
  split
  · exact Or.inr ⟨_, rfl⟩
  · exact Or.inl rfl

theorem toLowerStr_dot_cons (tl : Str) :
    toLowerStr ('.' :: tl) = '.' :: toLowerStr tl := by
  have h : ('.' : Char).toNat = 46 := by decide
  simp [toLowerStr, h]

theorem equalFold_nil_left {e : Str} (he : e ≠ []) : equalFold [] e = false := by
  cases e with
  | nil => exact absurd rfl he
  | cons c cs => rfl

theorem equalFold_dot_head {xs e : Str} (he : e ≠ [])
    (hd : e.headD (Char.ofNat 0) ≠ '.') :
    equalFold ('.' :: xs) e = false := by
  cases e with
  | nil => exact absurd rfl he
  | cons c cs =>
    simp only [List.headD_cons] at hd
    have hfold : foldNat c ≠ 46 := fun hf => hd (eq_dot_of_foldNat hf)
    have hdot : foldNat '.' = 46 := by decide
    have hne : (46 == foldNat c) = false := by
      simp only [beq_eq_false_iff_ne]
      exact fun hh => hfold hh.symm
    simp [equalFold, hdot, hne]

theorem shouldBlockFile_noext (cfg : ScanConfig) (f : FileInfo)
    (hne : cfg.allowedTypes ≠ [])
    (hall : cfg.allowedTypes.all (fun e => !e.isEmpty) = true)
    (hext : f.extension = []) : shouldBlockFile cfg f = true := by
  unfold shouldBlockFile
  by_cases hsz : isFileSizeAllowed cfg f.size = true
  · have hta : typeAllowed cfg f = false := by
      unfold typeAllowed
      rw [List.any_eq_false]
      intro e he
      have hee : e ≠ [] := by
        have h2 := List.all_eq_true.mp hall e he
        simpa using h2
      rw [hext, equalFold_nil_left hee]
      simp
    have hie : cfg.allowedTypes.isEmpty = false := by
      cases h : cfg.allowedTypes <;> simp_all
    simp [hsz, hta, hie]
  · have h2 : isFileSizeAllowed cfg f.size = false := by simpa using hsz
    simp [h2]

theorem mkFileRecord_isBlocked_eq (cfg : ScanConfig) (path : Str) (meta : FileMeta) :
    (mkFileRecord cfg path meta).isBlocked
      = shouldBlockFile cfg (mkFileRecord cfg path meta) := by
  unfold mkFileRecord
  split <;>
    (dsimp only
     simp only [shouldBlockFile_fields]
     split <;> simp_all [shouldBlockFile_fields])

/-- C9 (amended): the stored extension is the lowercased dotted
extension; an extension is empty or starts with a dot; with a non-empty
allow-list whose entries are all non-empty an extension-less file is
always blocked; and a non-empty configured entry without a leading dot
matches no stored extension.  (The claim as frozen fails only for the
degenerate empty-string entry, which matches extension-less files.) -/
theorem extension_allowlist_matching (cfg : ScanConfig) (path : Str) (meta : FileMeta) :
    (mkFileRecord cfg path meta).extension = toLowerStr (fileExt (baseName path)) ∧
    (∀ nm : Str, fileExt nm = [] ∨ (fileExt nm).headD (Char.ofNat 0) = '.') ∧
    (cfg.allowedTypes ≠ [] → cfg.allowedTypes.all (fun e => !e.isEmpty) = true →
      fileExt (baseName path) = [] → (mkFileRecord cfg path meta).isBlocked = true) ∧
    (∀ e : Str, e ≠ [] → e.headD (Char.ofNat 0) ≠ '.' →
      equalFold (mkFileRecord cfg path meta).extension e = false) := by
  refine ⟨mkFileRecord_extension cfg path meta, ?_, ?_, ?_⟩
  · intro nm
    rcases fileExt_nil_or_dot nm with h | ⟨tl, h⟩
    · exact Or.inl h
    · right
      rw [h]
      rfl
  · intro hne hall hext
    rw [mkFileRecord_isBlocked_eq]
    apply shouldBlockFile_noext cfg _ hne hall
    rw [mkFileRecord_extension, hext]
    rfl
  · intro e he hd
    rw [mkFileRecord_extension]
    rcases fileExt_nil_or_dot (baseName path) with h | ⟨tl, h⟩
    · rw [h]
      exact equalFold_nil_left he
    · rw [h, toLowerStr_dot_cons]
      exact equalFold_dot_head he hd

theorem processWork_shape (cfg : ScanConfig) (st : ScanState) (path : Str) (meta : FileMeta) :
    ∃ exF : List FileInfo,
      (processWork cfg st path meta).files = st.files ++ exF ∧
      (processWork cfg st path meta).workItems = st.workItems ∧
      (processWork cfg st path meta).totalFiles = st.totalFiles ∧
      exF.countP (fun f => f.isDirectory) = 0 := by
  unfold processWork
  cases hst : meta.statErr with
  | some msg => exact ⟨[], by simp, rfl, rfl, rfl⟩
  | none =>
    refine ⟨[mkFileRecord cfg path meta], by simp, rfl, rfl, ?_⟩
    simp [List.countP_cons, mkFileRecord_isDirectory]

theorem scanEntries_extends (cfg : ScanConfig) :
    ∀ (fuel : Nat) (path : Str) (isRoot : Bool) (es : List FSTree) (st : ScanState),
    ∃ (exF : List FileInfo) (exW : List ScanWork),
      (scanEntries cfg fuel path isRoot es st).files = st.files ++ exF ∧
      (scanEntries cfg fuel path isRoot es st).workItems = st.workItems ++ exW ∧
      (scanEntries cfg fuel path isRoot es st).totalFiles
        = st.totalFiles + (exF.countP (fun f => f.isDirectory) : Int) ∧
      exW.all (fun w => !w.isDir) = true := by
  intro fuel
  induction fuel with
  | zero =>
    intro path isRoot es st
    cases es <;>
      exact ⟨[], [], by simp [scanEntries], by simp [scanEntries], by simp [scanEntries], rfl⟩
  | succ fuel ih =>
    intro path isRoot es st
    cases es with
    | nil =>
      exact ⟨[], [], by simp [scanEntries], by simp [scanEntries], by simp [scanEntries], rfl⟩
    | cons e rest =>
      have comp : ∀ (st1 : ScanState) (exF1 : List FileInfo) (exW1 : List ScanWork),
          st1.files = st.files ++ exF1 →
          st1.workItems = st.workItems ++ exW1 →
          st1.totalFiles = st.totalFiles + (exF1.countP (fun f => f.isDirectory) : Int) →
          exW1.all (fun w => !w.isDir) = true →
          ∃ (exF : List FileInfo) (exW : List ScanWork),
            (scanEntries cfg fuel path isRoot rest st1).files = st.files ++ exF ∧
            (scanEntries cfg fuel path isRoot rest st1).workItems = st.workItems ++ exW ∧
            (scanEntries cfg fuel path isRoot rest st1).totalFiles
              = st.totalFiles + (exF.countP (fun f => f.isDirectory) : Int) ∧
            exW.all (fun w => !w.isDir) = true := by
        intro st1 exF1 exW1 hF hW hT hA
        obtain ⟨exF2, exW2, h2F, h2W, h2T, h2A⟩ := ih path isRoot rest st1
        refine ⟨exF1 ++ exF2, exW1 ++ exW2, ?_, ?_, ?_, ?_⟩
        · rw [h2F, hF, List.append_assoc]
        · rw [h2W, hW, List.append_assoc]
        · rw [h2T, hT, List.countP_append]
          push_cast
          ring
        · simp_all
      cases e with
      | file nm ie meta =>
        cases hie : ie with
        | some msg =>
          simp only [scanEntries, FSTree.infoErr, hie, FSTree.name]
          exact comp _ [] [] (by simp) (by simp) (by simp) rfl
        | none =>
          by_cases hskip : (cfg.exportBlockedToJSON
              && (baseName (joinPath path nm) == str "blocked_files.json")) = true
          · simp only [scanEntries, FSTree.infoErr, hie, FSTree.name, hskip, if_true]
            exact comp _ [] [] (by simp) (by simp) (by simp) rfl
          · have hskip' := eq_false_of_ne_true hskip
            simp only [scanEntries, FSTree.infoErr, hie, FSTree.name, hskip',
              Bool.false_eq_true, if_false]
            obtain ⟨exF, hF, hW, hT, hC⟩ := processWork_shape cfg
              { st with workItems := st.workItems ++
                  [{ path := joinPath path nm, isDir := false, priority := 1 }] }
              (joinPath path nm) meta
            refine comp _ exF
              [{ path := joinPath path nm, isDir := false, priority := 1 }]
              (by simpa using hF) (by simpa using hW) ?_ (by simp)
            simp [hT, hC]
      | dir nm ie entriesE =>
        cases hie : ie with
        | some msg =>
          simp only [scanEntries, FSTree.infoErr, hie, FSTree.name]
          exact comp _ [] [] (by simp) (by simp) (by simp) rfl
        | none =>
          by_cases hrec : cfg.scanRecursively = true
          · cases entriesE with
            | error msg =>
              simp only [scanEntries, FSTree.infoErr, hie, FSTree.name, hrec, if_true]
              refine comp _ [dirRecord (joinPath path nm) nm] [] ?_ ?_ ?_ rfl
              · simp [emitDirRecord]
              · simp [emitDirRecord]
              · simp [emitDirRecord, List.countP_cons, dirRecord]
            | ok es' =>
              simp only [scanEntries, FSTree.infoErr, hie, FSTree.name, hrec, if_true]
              obtain ⟨exFc, exWc, hcF, hcW, hcT, hcA⟩ :=
                ih (joinPath path nm) false es' (emitDirRecord st (joinPath path nm) nm)
              refine comp _ (dirRecord (joinPath path nm) nm :: exFc) exWc
                ?_ ?_ ?_ hcA
              · rw [hcF]
                simp [emitDirRecord]
              · rw [hcW]
                simp [emitDirRecord]
              · rw [hcT]
                simp [emitDirRecord, List.countP_cons, dirRecord]
                ring
          · have hrec' := eq_false_of_ne_true hrec
            cases isRoot with
            | true =>
              simp only [scanEntries, FSTree.infoErr, hie, FSTree.name, hrec',
                Bool.false_eq_true, if_false, eq_self_iff_true, if_true]
              refine comp _ [dirRecord (joinPath path nm) nm] [] ?_ ?_ ?_ rfl
              · simp [emitDirRecord]
              · simp [emitDirRecord]
              · simp [emitDirRecord, List.countP_cons, dirRecord]
            | false =>
              simp only [scanEntries, FSTree.infoErr, hie, FSTree.name, hrec',
                Bool.false_eq_true, if_false]
              exact comp _ [] [] (by simp) (by simp) (by simp) rfl

/-- C1 (amended): for every completed scan the final `totalFiles` counts
exactly the directory records (file records are counted by
`scannedFiles` instead), and `len(Files)` is the number of directory
records plus the number of file records. -/
theorem totalFiles_counts_directories (cfg : ScanConfig) (fuel : Nat) (rootPath : Str)
    (t : FSTree) :
    (runScan cfg fuel rootPath t).totalFiles
      = ((runScan cfg fuel rootPath t).files.countP (fun f => f.isDirectory) : Int) ∧
    (runScan cfg fuel rootPath t).files.length
      = (runScan cfg fuel rootPath t).files.countP (fun f => f.isDirectory)
        + (runScan cfg fuel rootPath t).files.countP (fun f => !f.isDirectory) := by
  have hlen : ∀ l : List FileInfo,
      l.length = l.countP (fun f => f.isDirectory) + l.countP (fun f => !f.isDirectory) := by
    intro l
    induction l with
    | nil => rfl
    | cons a l ihl =>
      by_cases h : a.isDirectory = true <;>
        simp [List.countP_cons, h, ihl] <;> omega
  refine ⟨?_, hlen _⟩
  cases t with
  | file nm ie meta =>
    simp only [runScan]
    obtain ⟨exF, hF, hW, hT, hC⟩ := processWork_shape cfg
      { initState with workItems := [{ path := rootPath, isDir := false, priority := 1 }] }
      rootPath meta
    rw [hT, hF]
    simp [initState, hC]
  | dir nm ie entriesE =>
    cases entriesE with
    | error msg =>
      simp [runScan, emitDirRecord, initState, List.countP_cons, dirRecord]
    | ok es =>
      obtain ⟨exF, exW, hF, hW, hT, hA⟩ := scanEntries_extends cfg fuel rootPath true es
        (emitDirRecord
          { initState with workItems := [{ path := rootPath, isDir := true, priority := 1 }] }
          rootPath (baseName rootPath))
      simp only [runScan]
      rw [hT, hF]
      simp [emitDirRecord, initState, List.countP_append, List.countP_cons, dirRecord]
      ring

/-- C7 (amended): every work item queued after the first is a file path;
only the bootstrap item queued by `startScan` carries the root, with the
directory flag set when the root is a directory. -/
theorem work_items_only_root_is_dir (cfg : ScanConfig) (fuel : Nat) (rootPath : Str)
    (t : FSTree) :
    (((runScan cfg fuel rootPath t).workItems.drop 1).all (fun w => !w.isDir)) = true ∧
    (∀ nm ie es, (runScan cfg fuel rootPath (FSTree.dir nm ie es)).workItems.head?
        = some { path := rootPath, isDir := true, priority := 1 }) := by
  constructor
  · cases t with
    | file nm ie meta =>
      simp only [runScan]
      obtain ⟨exF, hF, hW, hT, hC⟩ := processWork_shape cfg
        { initState with workItems := [{ path := rootPath, isDir := false, priority := 1 }] }
        rootPath meta
      rw [hW]
      simp [initState]
    | dir nm ie entriesE =>
      cases entriesE with
      | error msg => simp [runScan, emitDirRecord, initState]
      | ok es =>
        obtain ⟨exF, exW, hF, hW, hT, hA⟩ := scanEntries_extends cfg fuel rootPath true es
          (emitDirRecord
            { initState with workItems := [{ path := rootPath, isDir := true, priority := 1 }] }
            rootPath (baseName rootPath))
        simp only [runScan]
        rw [hW]
        simp [emitDirRecord, initState, hA]
  · intro nm ie es
    cases es with
    | error msg => simp [runScan, emitDirRecord, initState]
    | ok l =>
      obtain ⟨exF, exW, hF, hW, hT, hA⟩ := scanEntries_extends cfg fuel rootPath true l
        (emitDirRecord
          { initState with workItems := [{ path := rootPath, isDir := true, priority := 1 }] }
          rootPath (baseName rootPath))
      simp only [runScan]
      rw [hW]
      simp [emitDirRecord, initState]

/-- C4 (amended): `success` equals emptiness of the error log as it
stood when computed, *before* the export step; without an export failure
`success` is equivalent to an empty final log, but an export failure
appends an error string after `success` was already fixed. -/
theorem success_computed_before_export (cfg : ScanConfig) (fuel : Nat) (rootPath : Str)
    (t : FSTree) (exportErr : Option Str) :
    (finishScan cfg (runScan cfg fuel rootPath t) exportErr).success
      = (runScan cfg fuel rootPath t).errors.isEmpty ∧
    ((cfg.exportBlockedToJSON = false ∨ exportErr = none) →
      ((finishScan cfg (runScan cfg fuel rootPath t) exportErr).success = true ↔
        (finishScan cfg (runScan cfg fuel rootPath t) exportErr).progress.errors = [])) ∧
    (∀ msg, cfg.exportBlockedToJSON = true → exportErr = some msg →
      (finishScan cfg (runScan cfg fuel rootPath t) exportErr).progress.errors
        = (runScan cfg fuel rootPath t).errors
            ++ [str "Failed to export blocked files: " ++ msg]) ∧
    (rootPath ≠ [] →
      Scan cfg fuel rootPath t exportErr
        = Except.ok (finishScan cfg (runScan cfg fuel rootPath t) exportErr)) := by
  refine ⟨rfl, ?_, ?_, ?_⟩
  · intro h
    unfold finishScan
    rcases h with h | h
    · simp [h, List.isEmpty_iff]
    · cases hexp : cfg.exportBlockedToJSON <;> simp [h, hexp, List.isEmpty_iff]
  · intro msg hexp hme
    unfold finishScan
    simp [hexp, hme]
  · intro hr
    unfold Scan
    rw [if_neg (by simpa [List.isEmpty_iff] using hr)]

/-! ### Concrete fixtures for counterexamples and witnesses -/

/-- A plain configuration: 1 MB size limit, no allow-list, no patterns,
recursive, no export. -/
def exCfg : ScanConfig :=
  { maxFileSizeMB := 1, allowedTypes := [], blockedPatterns := [],
    scanRecursively := true, exportBlockedToJSON := false,
    workerCount := 1, bufferSize := 1 }

/-- Metadata of a small readable text file. -/
def metaSmall : FileMeta :=
  { size := 10, statErr := none, readErr := none, mime := str "text/plain" }

/-- A root directory holding one small file. -/
def treeOneFile : FSTree :=
  FSTree.dir (str "r") none (Except.ok [FSTree.file (str "a.txt") none metaSmall])

/-- A root directory holding one unreadable subdirectory. -/
def treeLocked : FSTree :=
  FSTree.dir (str "r") none
    (Except.ok [FSTree.dir (str "locked") none (Except.error (str "permission denied"))])

/-- Metadata of a file whose content read fails. -/
def metaReadErr : FileMeta :=
  { size := 100, statErr := none, readErr := some (str "permission denied"), mime := [] }

/-- C1, counterexample: with one directory record (the root) and one file
record, the final `totalFiles` is 1 while the claimed sum of directory
and non-directory records (and `len(Files)`) is 2: the workers never
increment `TotalFiles` for files. -/
theorem totalFiles_claim_cex :
    ¬ ((runScan exCfg 10 (str "/r") treeOneFile).totalFiles
        = ((runScan exCfg 10 (str "/r") treeOneFile).files.countP
            (fun f => f.isDirectory) : Int)
          + ((runScan exCfg 10 (str "/r") treeOneFile).files.countP
            (fun f => !f.isDirectory) : Int)) := by
  decide

/-- C2, witness: with a 1 MB limit, a file of 1048577 bytes is blocked
with the size reason. -/
theorem size_rule_boundary_witness :
    shouldBlockFile exCfg
        { path := str "/r/big.bin", name := str "big.bin", size := 1048577,
          fileType := [], mimeType := [], extension := str ".bin",
          isDirectory := false, isBlocked := false, blockReason := [],
          accessError := [] } = true ∧
    getBlockReason exCfg
        { path := str "/r/big.bin", name := str "big.bin", size := 1048577,
          fileType := [], mimeType := [], extension := str ".bin",
          isDirectory := false, isBlocked := false, blockReason := [],
          accessError := [] } = str "File size exceeds limit" :=
  (size_rule_boundary exCfg
    { path := str "/r/big.bin", name := str "big.bin", size := 1048577,
      fileType := [], mimeType := [], extension := str ".bin",
      isDirectory := false, isBlocked := false, blockReason := [],
      accessError := [] } (by decide) (by decide)).2.2 (by decide)

/-- C3, witness: on an oversize file the derived reason is the size
reason. -/
theorem block_decision_reason_agree_witness :
    getBlockReason exCfg
        { path := str "/r/big.bin", name := str "big.bin", size := 2097153,
          fileType := [], mimeType := [], extension := str ".bin",
          isDirectory := false, isBlocked := false, blockReason := [],
          accessError := [] } = str "File size exceeds limit" :=
  (block_decision_reason_agree exCfg
    { path := str "/r/big.bin", name := str "big.bin", size := 2097153,
      fileType := [], mimeType := [], extension := str ".bin",
      isDirectory := false, isBlocked := false, blockReason := [],
      accessError := [] }).2.1 (by decide)

/-- The export-enabled variant of the plain configuration. -/
def exCfgExport : ScanConfig := { exCfg with exportBlockedToJSON := true }

/-- C4, counterexample: when the export collaborator fails, the error is
appended after `Success` was computed, so the final result has
`success = true` together with a non-empty error log. -/
theorem success_iff_errors_cex :
    ¬ (((finishScan exCfgExport (runScan exCfgExport 10 (str "/r") treeOneFile)
          (some (str "disk full"))).success = true) ↔
       ((finishScan exCfgExport (runScan exCfgExport 10 (str "/r") treeOneFile)
          (some (str "disk full"))).progress.errors = [])) := by
  decide

/-- C4, witness: the export failure is appended to the error log of the
final result (while, per the theorem, `success` stays what it was before
export). -/
theorem success_computed_before_export_witness :
    (finishScan exCfgExport (runScan exCfgExport 10 (str "/r") treeOneFile)
        (some (str "disk full"))).progress.errors
      = (runScan exCfgExport 10 (str "/r") treeOneFile).errors
          ++ [str "Failed to export blocked files: " ++ str "disk full"] :=
  (success_computed_before_export exCfgExport 10 (str "/r") treeOneFile
    (some (str "disk full"))).2.2.1 (str "disk full") rfl rfl

/-- C5: at a root with an unreadable subdirectory, the scan completes with
`success = true`, the failing subtree is not descended (only the root and
the subdirectory records exist), but the directory-read error — though
formatted with the failing path — is only sent to the never-drained
`errorChan` and the progress error log stays empty, contradicting the
spec's "recorded as error entries". -/
theorem dir_read_error_never_logged :
    (runScan exCfg 10 (str "/r") treeLocked).errors = [] ∧
    (runScan exCfg 10 (str "/r") treeLocked).chanErrors
      = [str "error reading directory /r/locked: permission denied"] ∧
    ((runScan exCfg 10 (str "/r") treeLocked).files.map (fun f => f.path))
      = [str "/r", str "/r/locked"] ∧
    (Scan exCfg 10 (str "/r") treeLocked none).toOption.map (fun r => r.success)
      = some true := by
  decide

/-- C6, counterexample: a file whose content read fails gets a non-empty
access error but is *not* blocked when no rule blocks it. -/
theorem read_error_blocked_claim_cex :
    (mkFileRecord exCfg (str "/r/f.bin") metaReadErr).accessError ≠ [] ∧
    (mkFileRecord exCfg (str "/r/f.bin") metaReadErr).isBlocked = false := by
  decide

/-- C6, witness: the amended statement instantiated at a concrete
read-failed file. -/
theorem read_error_marks_not_blocks_witness :
    (mkFileRecord exCfg (str "/r/f.bin") metaReadErr).accessError
        = str "permission denied" ∧
    (mkFileRecord exCfg (str "/r/f.bin") metaReadErr).isBlocked
        = (mkFileRecord exCfg (str "/r/f.bin")
            { metaReadErr with readErr := none }).isBlocked ∧
    (mkFileRecord exCfg (str "/r/f.bin") metaReadErr).blockReason
        = (mkFileRecord exCfg (str "/r/f.bin")
            { metaReadErr with readErr := none }).blockReason :=
  read_error_marks_not_blocks exCfg (str "/r/f.bin") metaReadErr
    (str "permission denied") rfl

/-- C7, counterexample: scanning a directory root queues the root itself
as a work item with the directory flag set, so not every queued work
item is a file path. -/
theorem work_items_files_only_cex :
    ¬ (((runScan exCfg 10 (str "/r") treeOneFile).workItems.all
        (fun w => !w.isDir)) = true) := by
  decide

/-- C8, witness: defaults applied to worker count and buffer size only;
with `MaxFileSizeMB = 0` a 1-byte file fails the size rule. -/
theorem new_defaults_and_zero_limit_witness :
    (New { maxFileSizeMB := 0, allowedTypes := [], blockedPatterns := [],
           scanRecursively := false, exportBlockedToJSON := false,
           workerCount := 0, bufferSize := -5 }).workerCount = 4 ∧
    (New { maxFileSizeMB := 0, allowedTypes := [], blockedPatterns := [],
           scanRecursively := false, exportBlockedToJSON := false,
           workerCount := 0, bufferSize := -5 }).bufferSize = 1000 ∧
    isFileSizeAllowed
      (New { maxFileSizeMB := 0, allowedTypes := [], blockedPatterns := [],
             scanRecursively := false, exportBlockedToJSON := false,
             workerCount := 0, bufferSize := -5 }) 1 = false :=
  ⟨(new_defaults_and_zero_limit _).2.2.2.2.2.1 (by decide),
   (new_defaults_and_zero_limit _).2.2.2.2.2.2.2.1 (by decide),
   (new_defaults_and_zero_limit _).2.2.2.2.2.2.2.2.2 rfl 1 (by decide)⟩

/-- The allow-list configuration holding one empty entry. -/
def cfgEmptyEntry : ScanConfig :=
  { exCfg with maxFileSizeMB := 0, allowedTypes := [str ""] }

/-- Metadata of an empty readable file. -/
def metaZero : FileMeta :=
  { size := 0, statErr := none, readErr := none, mime := str "text/plain" }

/-- C9, counterexample: with the non-empty allow-list `[""]`, a file
without extension is *not* blocked — the empty entry (which has no
leading dot) matches the empty stored extension. -/
theorem noext_allowlist_claim_cex :
    cfgEmptyEntry.allowedTypes ≠ [] ∧
    (mkFileRecord cfgEmptyEntry (str "/r/noext") metaZero).extension = [] ∧
    (mkFileRecord cfgEmptyEntry (str "/r/noext") metaZero).isBlocked = false := by
  refine ⟨by decide, by decide, by decide⟩

/-- The allow-list configuration used by the C9 witness. -/
def cfgTxtOnly : ScanConfig :=
  { exCfg with maxFileSizeMB := 0, allowedTypes := [str ".txt"] }

/-- C9, witness: with the all-non-empty allow-list `[".txt"]`, an
extension-less file is blocked. -/
theorem extension_allowlist_matching_witness :
    (mkFileRecord cfgTxtOnly (str "/r/noext") metaZero).isBlocked = true :=
  (extension_allowlist_matching cfgTxtOnly (str "/r/noext") metaZero).2.2.1
    (by decide) (by decide) (by decide)

/-- The pattern configuration whose first pattern is malformed. -/
def cfgBadPattern : ScanConfig :=
  { exCfg with blockedPatterns := [str "[", str "*.tmp"] }

/-- C10, witness: the malformed pattern `"["` (whose match errors on
every name) is never the reported reason. -/
theorem malformed_pattern_ignored_witness :
    getBlockReason cfgBadPattern
        { path := str "/r/x.tmp", name := str "x.tmp", size := 10,
          fileType := [], mimeType := [], extension := str ".tmp",
          isDirectory := false, isBlocked := false, blockReason := [],
          accessError := [] }
      ≠ str "File matches blocked pattern: " ++ str "[" :=
  (malformed_pattern_ignored cfgBadPattern
    { path := str "/r/x.tmp", name := str "x.tmp", size := 10,
      fileType := [], mimeType := [], extension := str ".tmp",
      isDirectory := false, isBlocked := false, blockReason := [],
      accessError := [] } (str "[") (by decide)).2.2
